import Mathlib

/- Verification of the window-management and animation core of fht-compositor.
   The Rust sources are shallowly embedded: `f64` values are modelled as `ℚ`,
   machine integers as `Int`/`Nat` (no overflow is reachable in the claims),
   fallible or panicking paths are made explicit in result types. -/

/- ===== AnimationEngine (src/utils/animation/mod.rs) ===== -/

/-- Modelled from the spec: the easing curves live in `utils/animation/curve.rs`,
which is not part of the provided sources. The spec describes a Simple curve as
an easing function mapping normalized progress `x ∈ [0,1]` to a value `y`
(not necessarily monotonic or bounded), and states that every animation's value
equals `start` at elapsed 0 (progress 0), which pins `y 0 = 0`. -/
structure SimpleEasing where
  y : ℚ → ℚ
  y_zero : y 0 = 0

/-- Modelled from the spec: cubic bezier curve from `curve.rs` (not in the
provided sources), mapping progress `x ∈ [0,1]` to a value, with `y 0 = 0`
as pinned by the spec's "value equals start at elapsed 0". -/
structure CubicCurve where
  y : ℚ → ℚ
  y_zero : y 0 = 0

/-- Modelled from the spec: spring curve from `curve.rs` (not in the provided
sources). It exposes `oscillate : elapsed seconds → progress` (unclamped; may
overshoot) and its own physically-derived settling `duration`. -/
structure SpringCurve where
  oscillate : ℚ → ℚ
  duration : ℚ

/-- The `AnimationCurve` variants: `Simple(easing)`, `Cubic(params)`, `Spring(params)`. -/
inductive AnimationCurve where
  | Simple : SimpleEasing → AnimationCurve
  | Cubic : CubicCurve → AnimationCurve
  | Spring : SpringCurve → AnimationCurve

/-- `f64::clamp(0.0, 1.0)`, i.e. `min (max x 0) 1`. -/
def clampQ (x : ℚ) : ℚ := min (max x 0) 1

/-- `Time::elapsed(&start, end)` as used by the animation code: a nonnegative
duration, `max (t - start) 0`. -/
def elapsedQ (start t : ℚ) : ℚ := max (t - start) 0

/-- The `Animation` struct of `src/utils/animation/mod.rs`. Times and values
(`f64` / `Duration` / `Time<Monotonic>`) are modelled as `ℚ`. -/
structure Animation where
  start : ℚ
  end_ : ℚ
  current_value : ℚ
  curve : AnimationCurve
  started_at : ℚ
  current_time : ℚ
  duration : ℚ

/-- `Animation::new(start, end, curve, duration)`. The monotonic-clock read is
an explicit `now` parameter. The `assert!(!(start == end))` panic is modelled
as `none`; for Spring curves the caller's duration is replaced by the spring's
own duration. -/
def Animation.new (start end_ : ℚ) (curve : AnimationCurve) (duration : ℚ)
    (now : ℚ) : Option Animation :=
  if start = end_ then
    none
  else
    let duration := match curve with
      | AnimationCurve.Spring spring => spring.duration
      | _ => duration
    some { start := start, end_ := end_, current_value := start, curve := curve,
           started_at := now, current_time := now, duration := duration }

/-- `Animation::set_current_time(new_current_time)`: recomputes `current_value`
from the curve and the elapsed time. -/
def Animation.set_current_time (a : Animation) (t : ℚ) : Animation :=
  { a with
    current_time := t
    current_value :=
      match a.curve with
      | AnimationCurve.Simple easing =>
          let elapsed := elapsedQ a.started_at t
          let total := a.duration
          let x := clampQ (elapsed / total)
          easing.y x * (a.end_ - a.start) + a.start
      | AnimationCurve.Cubic cubic =>
          let elapsed := elapsedQ a.started_at t
          let total := a.duration
          let x := clampQ (elapsed / total)
          cubic.y x * (a.end_ - a.start) + a.start
      | AnimationCurve.Spring spring =>
          let elapsed := elapsedQ a.started_at t
          spring.oscillate elapsed * (a.end_ - a.start) + a.start }

/-- `Animation::is_finished()`: `Time::elapsed(&started_at, current_time) >= duration`. -/
def Animation.is_finished (a : Animation) : Bool :=
  decide (a.duration ≤ elapsedQ a.started_at a.current_time)

/-- `Animation::value()`: a pure read of the last computed value. -/
def Animation.value (a : Animation) : ℚ :=
  a.current_value

/-- If `1 ≤ x` then clamping into `[0,1]` yields `1`. -/
theorem clampQ_of_one_le {x : ℚ} (h : 1 ≤ x) : clampQ x = 1 := by
  have h0 : (0 : ℚ) ≤ x := le_trans zero_le_one h
  simp [clampQ, max_eq_left h0, min_eq_right h]

/-- Clamping `0` into `[0,1]` yields `0`. -/
theorem clampQ_zero : clampQ 0 = 0 := by
  simp [clampQ]

/-- C6: after `set_current_time t`, a Simple or Cubic animation's value equals
`curve.y (clamp ((t - start_time)/duration) 0 1) * (end - start) + start`, so
the value is `start` at elapsed 0 and the curve's value at progress exactly 1
for every elapsed ≥ duration; a Spring animation's value is
`spring.oscillate(elapsed) * (end - start) + start`, unclamped; and
`is_finished` is false for elapsed < duration and true for elapsed ≥ duration,
for every curve kind. -/
theorem animation_set_current_time_spec (a : Animation) (t : ℚ)
    (hd : 0 < a.duration) :
    (∀ e, a.curve = AnimationCurve.Simple e →
      (a.set_current_time t).value
        = e.y (clampQ (elapsedQ a.started_at t / a.duration))
            * (a.end_ - a.start) + a.start) ∧
    (∀ c, a.curve = AnimationCurve.Cubic c →
      (a.set_current_time t).value
        = c.y (clampQ (elapsedQ a.started_at t / a.duration))
            * (a.end_ - a.start) + a.start) ∧
    (∀ e, a.curve = AnimationCurve.Simple e → elapsedQ a.started_at t = 0 →
      (a.set_current_time t).value = a.start) ∧
    (∀ c, a.curve = AnimationCurve.Cubic c → elapsedQ a.started_at t = 0 →
      (a.set_current_time t).value = a.start) ∧
    (∀ e, a.curve = AnimationCurve.Simple e →
        a.duration ≤ elapsedQ a.started_at t →
      (a.set_current_time t).value = e.y 1 * (a.end_ - a.start) + a.start) ∧
    (∀ c, a.curve = AnimationCurve.Cubic c →
        a.duration ≤ elapsedQ a.started_at t →
      (a.set_current_time t).value = c.y 1 * (a.end_ - a.start) + a.start) ∧
    (∀ sp, a.curve = AnimationCurve.Spring sp →
      (a.set_current_time t).value
        = sp.oscillate (elapsedQ a.started_at t) * (a.end_ - a.start) + a.start) ∧
    ((a.set_current_time t).is_finished = true
        ↔ a.duration ≤ elapsedQ a.started_at t) := by
  refine ⟨?_, ?_, ?_, ?_, ?_, ?_, ?_, ?_⟩
  · intro e he
    simp [Animation.set_current_time, Animation.value, he]
  · intro c hc
    simp [Animation.set_current_time, Animation.value, hc]
  · intro e he hz
    simp [Animation.set_current_time, Animation.value, he, hz, clampQ_zero,
      e.y_zero, zero_div]
  · intro c hc hz
    simp [Animation.set_current_time, Animation.value, hc, hz, clampQ_zero,
      c.y_zero, zero_div]
  · intro e he hge
    have h1 : (1 : ℚ) ≤ elapsedQ a.started_at t / a.duration :=
      (one_le_div hd).mpr hge
    simp [Animation.set_current_time, Animation.value, he, clampQ_of_one_le h1]
  · intro c hc hge
    have h1 : (1 : ℚ) ≤ elapsedQ a.started_at t / a.duration :=
      (one_le_div hd).mpr hge
    simp [Animation.set_current_time, Animation.value, hc, clampQ_of_one_le h1]
  · intro sp hsp
    simp [Animation.set_current_time, Animation.value, hsp]
  · simp [Animation.is_finished, Animation.set_current_time]

/-- A concrete animation used to witness the C6 theorem: linear easing from 0
to 4 over a duration of 2, started at time 0. -/
def c6Anim : Animation :=
  { start := 0, end_ := 4, current_value := 0,
    curve := AnimationCurve.Simple ⟨fun x => x, rfl⟩,
    started_at := 0, current_time := 0, duration := 2 }

/-- Witness for C6: at time 1 the linear animation from 0 to 4 over duration 2
has value 2 and is not finished. -/
theorem animation_set_current_time_spec_witness :
    (0 : ℚ) < c6Anim.duration ∧ (c6Anim.set_current_time 1).value = 2 ∧
      (c6Anim.set_current_time 1).is_finished ≠ true := by
  have h := animation_set_current_time_spec c6Anim 1 (by norm_num [c6Anim])
  refine ⟨by norm_num [c6Anim], ?_, ?_⟩
  · have h1 := h.1 ⟨fun x => x, rfl⟩ rfl
    rw [h1]
    norm_num [c6Anim, clampQ, elapsedQ]
  · intro hfin
    have h8 := h.2.2.2.2.2.2.2.mp hfin
    norm_num [c6Anim, elapsedQ] at h8

/-- C7: an animation constructed with a Spring curve takes the spring's own
settling duration, regardless of the caller-supplied duration; Simple and
Cubic curves keep the supplied duration unchanged. -/
theorem animation_new_duration_spec (s e d now : ℚ) (h : s ≠ e) :
    (∀ sp : SpringCurve,
      (Animation.new s e (AnimationCurve.Spring sp) d now).map Animation.duration
        = some sp.duration) ∧
    (∀ ea : SimpleEasing,
      (Animation.new s e (AnimationCurve.Simple ea) d now).map Animation.duration
        = some d) ∧
    (∀ cu : CubicCurve,
      (Animation.new s e (AnimationCurve.Cubic cu) d now).map Animation.duration
        = some d) := by
  refine ⟨fun sp => ?_, fun ea => ?_, fun cu => ?_⟩ <;>
    simp [Animation.new, h]

/-- Witness for C7: a spring with settling duration 3 overrides a supplied
duration of 5. -/
theorem animation_new_duration_spec_witness :
    (Animation.new 0 1 (AnimationCurve.Spring ⟨fun _ => 0, 3⟩) 5 0).map
        Animation.duration = some 3 :=
  (animation_new_duration_spec 0 1 5 0 (by norm_num)).1 ⟨fun _ => 0, 3⟩

/-- C10: constructing an animation fails exactly when `start = end`: the
construction returns `none` (the source `assert!` aborts) iff the two
endpoints are equal, for every curve and duration. -/
theorem animation_new_rejects_equal_endpoints (s e d now : ℚ)
    (curve : AnimationCurve) :
    Animation.new s e curve d now = none ↔ s = e := by
  by_cases h : s = e <;> simp [Animation.new, h]

/- ===== Shared geometry (smithay Rectangle / Point over i32, modelled as Int) ===== -/

/-- A logical/global point with `i32` coordinates, modelled as `Int`. -/
structure Pt where
  x : Int
  y : Int
deriving DecidableEq, Repr, Inhabited

/-- An axis-aligned rectangle (`smithay::utils::Rectangle` over `i32`),
given by its origin and size. -/
structure Rect where
  x : Int
  y : Int
  w : Int
  h : Int
deriving DecidableEq, Repr, Inhabited

/-- `Rectangle::contains(point)`: origin-inclusive, far-edge-exclusive. -/
def Rect.containsPt (r : Rect) (p : Pt) : Bool :=
  decide (r.x ≤ p.x) && decide (p.x < r.x + r.w) &&
    decide (r.y ≤ p.y) && decide (p.y < r.y + r.h)

/-- `Rectangle::intersection(other).is_some()`: the rectangles properly overlap. -/
def Rect.overlaps (a b : Rect) : Bool :=
  decide (a.x < b.x + b.w) && decide (b.x < a.x + a.w) &&
    decide (a.y < b.y + b.h) && decide (b.y < a.y + a.h)

/-- `Rectangle::merge(other)`: the smallest rectangle containing both. -/
def Rect.merge (a b : Rect) : Rect :=
  let x := min a.x b.x
  let y := min a.y b.y
  { x := x, y := y,
    w := max (a.x + a.w) (b.x + b.w) - x,
    h := max (a.y + a.h) (b.y + b.h) - y }

/- ===== FhtWindow (src/shell/window.rs interface surface) ===== -/

/-- The slice of `FhtWindow` the verified code paths read or write: a stable
identity, the tiled/fullscreen flags set during mapping, the global geometry,
and the `title()` / `app_id()` accessors used by window rules. -/
structure FhtWindow where
  id : Nat
  tiled : Bool
  fullscreen : Bool
  globalGeometry : Rect
  title : String
  app_id : String
deriving DecidableEq, Repr, Inhabited

/- ===== WindowRuleMatcher (src/config/types/rules.rs) ===== -/

/-- `WindowRulePattern`: optional workspace index, title pattern and app-id
pattern (`src/config/types/rules.rs`). -/
structure WindowRulePattern where
  workspace : Option Nat
  title : Option String
  app_id : Option String
deriving DecidableEq, Repr, Inhabited

/-- `WindowRulePattern::matches(window, workspace)`: the if-else-if chain of
`rules.rs`, evaluating exactly one criterion by fixed precedence. -/
def WindowRulePattern.matches (p : WindowRulePattern) (window : FhtWindow)
    (workspace : Nat) : Bool :=
  match p.workspace with
  | some workspace_idx => workspace_idx == workspace
  | none =>
    match p.title with
    | some title => window.title == title
    | none =>
      match p.app_id with
      | some app_id => window.app_id == app_id
      | none => false

/-- A window titled "bar" on the pattern tests below. -/
def c8WindowBar : FhtWindow :=
  { id := 0, tiled := true, fullscreen := false,
    globalGeometry := ⟨0, 0, 100, 100⟩, title := "bar", app_id := "x" }

/-- A window titled "foo" on the pattern tests below. -/
def c8WindowFoo : FhtWindow :=
  { id := 1, tiled := true, fullscreen := false,
    globalGeometry := ⟨0, 0, 100, 100⟩, title := "foo", app_id := "x" }

/-- C8: `matches` evaluates exactly one criterion by fixed precedence —
a set workspace index is compared by exact equality with title and app-id
ignored; otherwise a set title pattern is compared exactly; otherwise a set
app-id pattern is compared exactly; a pattern with no criteria never matches.
In particular the pattern `{workspace = 2, title = "foo"}` matches a window
titled "bar" on workspace 2 and does not match a window titled "foo" on
workspace 3. -/
theorem window_rule_pattern_matches_spec (p : WindowRulePattern)
    (window : FhtWindow) (ws i : Nat) (t a : String) :
    (p.workspace = some i →
      (p.matches window ws = true ↔ i = ws)) ∧
    (p.workspace = none → p.title = some t →
      (p.matches window ws = true ↔ window.title = t)) ∧
    (p.workspace = none → p.title = none → p.app_id = some a →
      (p.matches window ws = true ↔ window.app_id = a)) ∧
    (p.workspace = none → p.title = none → p.app_id = none →
      p.matches window ws = false) ∧
    (WindowRulePattern.matches ⟨some 2, some "foo", none⟩ c8WindowBar 2 = true) ∧
    (WindowRulePattern.matches ⟨some 2, some "foo", none⟩ c8WindowFoo 3 = false) := by
  refine ⟨?_, ?_, ?_, ?_, by decide, by decide⟩
  · intro hw
    simp [WindowRulePattern.matches, hw]
  · intro hw ht
    simp [WindowRulePattern.matches, hw, ht]
  · intro hw ht ha
    simp [WindowRulePattern.matches, hw, ht, ha]
  · intro hw ht ha
    simp [WindowRulePattern.matches, hw, ht, ha]

/-- Witness for C8: applying the precedence theorem to the pattern
`{workspace = 2, title = "foo"}` on workspace 2 shows the workspace criterion
alone decides the match. -/
theorem window_rule_pattern_matches_spec_witness :
    WindowRulePattern.matches ⟨some 2, some "foo", none⟩ c8WindowBar 2 = true :=
  ((window_rule_pattern_matches_spec ⟨some 2, some "foo", none⟩ c8WindowBar 2 2
    "foo" "x").1 rfl).mpr rfl

/- ===== FocusResolver (src/shell/mod.rs, Fht::focus_target_under) ===== -/

/-- The wlr-layer-shell layers (`smithay::wayland::shell::wlr_layer::Layer`). -/
inductive ShellLayer where
  | Background
  | Bottom
  | Top
  | Overlay
deriving DecidableEq, Repr

/-- A layer-shell surface, identified stably. -/
structure LayerSurface where
  id : Nat
deriving DecidableEq, Repr, Inhabited

/-- `FocusTarget`: tagged union over windows and layer-shell surfaces (the
variants reachable from `focus_target_under`). -/
inductive FocusTarget where
  | window : FhtWindow → FocusTarget
  | layerSurface : LayerSurface → FocusTarget
deriving DecidableEq, Repr

/-- `FullscreenSurface` (src/shell/workspaces.rs interface): the fullscreen
slot's window together with its remembered restore index. -/
structure FullscreenSurface where
  inner : FhtWindow
  last_known_idx : Nat
deriving DecidableEq, Repr, Inhabited

/-- The slice of the active `Workspace` that `focus_target_under` reads: the
fullscreen slot and the `window_under` front-to-back hit test. The workspaces
module is not part of the provided sources, so `window_under` is kept
abstract — every theorem below holds for an arbitrary hit-test function. -/
structure ActiveWorkspaceView where
  fullscreen : Option FullscreenSurface
  window_under : Pt → Option (FhtWindow × Pt)

/-- The focused output as `focus_target_under` sees it: its global geometry,
its layer map (`layer_under` per layer, `layer_geometry`), and the active
workspace of its workspace set. -/
structure FocusedOutputView where
  geometry : Rect
  layer_under : ShellLayer → Pt → Option LayerSurface
  layer_geometry : LayerSurface → Rect
  active : ActiveWorkspaceView

/-- The focus state read by `focus_target_under`: `focus_state.output`,
resolved (together with `wset_for(output).active()`) into a
`FocusedOutputView` when present. -/
structure FocusEnv where
  focusedOutput : Option FocusedOutputView

/-- `Fht::focus_target_under(point)`: the if-else-if chain of
`src/shell/mod.rs` lines 41-74. -/
def focus_target_under (s : FocusEnv) (point : Pt) :
    Option (FocusTarget × Pt) :=
  match s.focusedOutput with
  | none => none
  | some output =>
    let active_ws := output.active
    let og := output.geometry
    match output.layer_under ShellLayer.Overlay point with
    | some layer =>
        some (FocusTarget.layerSurface layer,
          ⟨og.x + (output.layer_geometry layer).x,
           og.y + (output.layer_geometry layer).y⟩)
    | none =>
      match active_ws.fullscreen with
      | some f => some (FocusTarget.window f.inner, ⟨og.x, og.y⟩)
      | none =>
        match output.layer_under ShellLayer.Top point with
        | some layer =>
            some (FocusTarget.layerSurface layer,
              ⟨og.x + (output.layer_geometry layer).x,
               og.y + (output.layer_geometry layer).y⟩)
        | none =>
          match active_ws.window_under point with
          | some (w, loc) => some (FocusTarget.window w, loc)
          | none =>
            match (output.layer_under ShellLayer.Bottom point).or
                (output.layer_under ShellLayer.Background point) with
            | some layer =>
                some (FocusTarget.layerSurface layer,
                  ⟨og.x + (output.layer_geometry layer).x,
                   og.y + (output.layer_geometry layer).y⟩)
            | none => none

/-- Specification-level scan stages, written after the spec's words: the fixed
z-order list overlay, fullscreen, top, workspace windows, bottom, background,
each stage yielding its hit (if any) with that hit's screen-space origin. -/
def focusScanStages (output : FocusedOutputView) (point : Pt) :
    List (Option (FocusTarget × Pt)) :=
  let og := output.geometry
  let layerHit := fun (layer : LayerSurface) =>
    (FocusTarget.layerSurface layer,
      (⟨og.x + (output.layer_geometry layer).x,
        og.y + (output.layer_geometry layer).y⟩ : Pt))
  [ (output.layer_under ShellLayer.Overlay point).map layerHit,
    output.active.fullscreen.map
      (fun f => (FocusTarget.window f.inner, (⟨og.x, og.y⟩ : Pt))),
    (output.layer_under ShellLayer.Top point).map layerHit,
    (output.active.window_under point).map
      (fun wl => (FocusTarget.window wl.1, wl.2)),
    (output.layer_under ShellLayer.Bottom point).map layerHit,
    (output.layer_under ShellLayer.Background point).map layerHit ]

/-- Specification-level focus resolver, written after the spec's words: `none`
when no focused output is recorded, otherwise the first hit of the fixed
z-order scan, with no fallthrough after a match. -/
def focusResolverSpec (s : FocusEnv) (point : Pt) : Option (FocusTarget × Pt) :=
  match s.focusedOutput with
  | none => none
  | some output => (focusScanStages output point).findSome? id

/-- C4: `focus_target_under` returns `none` when no focused output is
recorded, and otherwise returns the first hit of the fixed scan order
overlay-layer surfaces, fullscreen window of the active workspace, top-layer
surfaces, workspace windows, bottom-layer surfaces, background-layer surfaces,
with no fallthrough after a match. -/
theorem focus_target_under_scan_order (s : FocusEnv) (point : Pt) :
    focus_target_under s point = focusResolverSpec s point := by
  unfold focus_target_under focusResolverSpec focusScanStages
  cases s.focusedOutput with
  | none => rfl
  | some output =>
    cases hov : output.layer_under ShellLayer.Overlay point <;>
      cases hfs : output.active.fullscreen <;>
        cases htop : output.layer_under ShellLayer.Top point <;>
          cases hwin : output.active.window_under point <;>
            cases hbot : output.layer_under ShellLayer.Bottom point <;>
              cases hbg : output.layer_under ShellLayer.Background point <;>
                simp [Option.or, List.findSome?, *]

/-- C5: the fullscreen branch performs no point-containment test — whenever no
overlay-layer surface is hit and the active workspace holds a fullscreen slot,
the fullscreen window is returned at the output's origin even for a point
outside the fullscreen window's geometry, whatever the top, bottom and
background layers and the workspace hit test would have answered. -/
theorem focus_target_under_fullscreen_skips_hit_test (s : FocusEnv) (point : Pt)
    (output : FocusedOutputView) (f : FullscreenSurface)
    (hout : s.focusedOutput = some output)
    (hov : output.layer_under ShellLayer.Overlay point = none)
    (hfs : output.active.fullscreen = some f)
    (hmiss : f.inner.globalGeometry.containsPt point = false) :
    focus_target_under s point
      = some (FocusTarget.window f.inner,
          ⟨output.geometry.x, output.geometry.y⟩) := by
  simp [focus_target_under, hout, hov, hfs]

/-- The fullscreen window of the C5 witness: a 100x100 window at the origin. -/
def c5FsWindow : FhtWindow :=
  { id := 7, tiled := false, fullscreen := true,
    globalGeometry := ⟨0, 0, 100, 100⟩, title := "fs", app_id := "fs" }

/-- The focused output of the C5 witness: no layer-shell hits anywhere, a
fullscreen slot holding `c5FsWindow`, and a workspace hit test that never
answers. -/
def c5Output : FocusedOutputView :=
  { geometry := ⟨0, 0, 1920, 1080⟩,
    layer_under := fun _ _ => none,
    layer_geometry := fun _ => ⟨0, 0, 0, 0⟩,
    active := { fullscreen := some ⟨c5FsWindow, 0⟩,
                window_under := fun _ => none } }

/-- Witness for C5: the point (500, 500) lies outside the 100x100 fullscreen
window, yet the fullscreen window is returned as the focus target. -/
theorem focus_target_under_fullscreen_skips_hit_test_witness :
    focus_target_under ⟨some c5Output⟩ ⟨500, 500⟩
      = some (FocusTarget.window c5FsWindow, ⟨0, 0⟩) :=
  focus_target_under_fullscreen_skips_hit_test ⟨some c5Output⟩ ⟨500, 500⟩
    c5Output ⟨c5FsWindow, 0⟩ rfl rfl rfl (by decide)

/- ===== WindowLifecycleController (src/shell/mod.rs, Fht::map_window) ===== -/

/-- A `Workspace`'s structural slice touched by `map_window`: its ordered
tiled window sequence and its optional fullscreen slot. -/
structure Workspace where
  windows : List FhtWindow
  fullscreen : Option FullscreenSurface
deriving DecidableEq, Repr, Inhabited

/-- Modelled from the spec: `Workspace::insert_window` lives in the workspaces
module, which is not part of the provided sources; the spec states the new
window is appended to the destination workspace's tiled sequence. -/
def Workspace.insert_window (ws : Workspace) (window : FhtWindow) : Workspace :=
  { ws with windows := ws.windows ++ [window] }

/-- A `WorkspaceSet`: the workspaces of one output and the active index. -/
structure WorkspaceSet where
  workspaces : List Workspace
  active_idx : Nat
deriving DecidableEq, Repr, Inhabited

/-- The compositor state slice read and written by `map_window`: the pending
window list (with each window's proposed output, as an index into `wsets`),
the per-output workspace sets, the focus target of `focus_state`, and the
`CONFIG.general.focus_new_windows` flag. -/
structure Fht where
  pending_windows : List (FhtWindow × Nat)
  wsets : List WorkspaceSet
  focus_target : Option FocusTarget
  focus_new_windows : Bool
deriving DecidableEq, Repr

/-- `Vec::position` followed by `Vec::remove`: finds the first pending entry
whose window equals `window` and returns it with the remaining list, or `none`
when no entry matches. -/
def removeFirst (l : List (FhtWindow × Nat)) (window : FhtWindow) :
    Option ((FhtWindow × Nat) × List (FhtWindow × Nat)) :=
  match l with
  | [] => none
  | p :: rest =>
    if p.1 = window then some (p, rest)
    else (removeFirst rest window).map fun q => (q.1, p :: q.2)

/-- `Fht::map_window(window)` (src/shell/mod.rs lines 201-262), with the
`dummy_settings` defaults of the source (not floating, not fullscreen, no
explicit output, no explicit workspace): remove the window from the pending
list, set it tiled and not fullscreen, restore a displaced fullscreen slot
into the active workspace at its clamped `last_known_idx`, insert the window,
and optionally focus it. -/
def Fht.map_window (s : Fht) (window : FhtWindow) : Fht :=
  match removeFirst s.pending_windows window with
  | none => s
  | some (entry, rest) =>
    let window := { entry.1 with tiled := true, fullscreen := false }
    let output := entry.2
    let wset := s.wsets.getD output default
    let workspace := wset.workspaces.getD wset.active_idx default
    let workspace : Workspace :=
      match workspace.fullscreen with
      | some fs =>
          let last_known_idx :=
            min fs.last_known_idx (workspace.windows.length - 1)
          { windows := workspace.windows.insertIdx last_known_idx fs.inner,
            fullscreen := none }
      | none => workspace
    let workspace := workspace.insert_window window
    let wset :=
      { wset with workspaces := wset.workspaces.set wset.active_idx workspace }
    let s' := { s with pending_windows := rest, wsets := s.wsets.set output wset }
    if s'.focus_new_windows then
      { s' with focus_target := some (FocusTarget.window window) }
    else s'

/-- Setting then reading the same in-range index of a list yields the new
element. -/
theorem getD_set_self {α : Type} (l : List α) (n : Nat) (a d : α)
    (h : n < l.length) : (l.set n a).getD n d = a := by
  induction l generalizing n with
  | nil => simp at h
  | cons x xs ih =>
    cases n with
    | zero => rfl
    | succ m =>
      have hm : m < xs.length := by simpa using h
      simpa [List.set, List.getD] using ih m hm

/-- When no pending entry holds the window, `removeFirst` finds nothing. -/
theorem removeFirst_eq_none (l : List (FhtWindow × Nat)) (window : FhtWindow)
    (h : ∀ p ∈ l, p.1 ≠ window) : removeFirst l window = none := by
  induction l with
  | nil => rfl
  | cons p rest ih =>
    have hp : p.1 ≠ window := h p (List.mem_cons_self p rest)
    have hrest : ∀ q ∈ rest, q.1 ≠ window :=
      fun q hq => h q (List.mem_cons_of_mem p hq)
    simp [removeFirst, hp, ih hrest]

/-- C1 (amended): when the destination workspace's fullscreen slot is occupied,
`map_window` clears the slot and re-inserts its window into the tiled sequence
at `last_known_idx` clamped into `[0, max(current_length - 1, 0)]` — i.e. at
`min(last_known_idx, new_length - 1)`, not `min(last_known_idx, new_length)` —
and this restoration happens before the new window is appended. -/
theorem map_window_restores_displaced_fullscreen (s : Fht) (window : FhtWindow)
    (entry : FhtWindow × Nat) (rest : List (FhtWindow × Nat))
    (wset : WorkspaceSet) (ws : Workspace) (fs : FullscreenSurface)
    (hrem : removeFirst s.pending_windows window = some (entry, rest))
    (hout : entry.2 < s.wsets.length)
    (hwset : s.wsets.getD entry.2 default = wset)
    (hact : wset.active_idx < wset.workspaces.length)
    (hws : wset.workspaces.getD wset.active_idx default = ws)
    (hfs : ws.fullscreen = some fs) :
    ((s.map_window window).wsets.getD entry.2 default).workspaces.getD
        wset.active_idx default
      = { windows := (ws.windows.insertIdx
              (min fs.last_known_idx (ws.windows.length - 1)) fs.inner)
            ++ [{ entry.1 with tiled := true, fullscreen := false }],
          fullscreen := none } := by
  simp only [Fht.map_window, hrem]
  rw [hwset, hws, hfs]
  by_cases hfoc : s.focus_new_windows <;>
    simp [hfoc, Workspace.insert_window, List.getD_eq_getElem?_getD,
      List.getElem?_set_eq_of_lt, hout, hact]

/-- Tiled window A of the concrete displaced-fullscreen scenario. -/
def c1WindowA : FhtWindow :=
  { id := 1, tiled := true, fullscreen := false,
    globalGeometry := ⟨0, 0, 10, 10⟩, title := "a", app_id := "a" }

/-- Tiled window B of the concrete displaced-fullscreen scenario. -/
def c1WindowB : FhtWindow :=
  { id := 2, tiled := true, fullscreen := false,
    globalGeometry := ⟨0, 0, 10, 10⟩, title := "b", app_id := "b" }

/-- Window C of the concrete scenario: fullscreened from tiled index 2. -/
def c1WindowC : FhtWindow :=
  { id := 3, tiled := true, fullscreen := false,
    globalGeometry := ⟨0, 0, 10, 10⟩, title := "c", app_id := "c" }

/-- Window D of the concrete scenario: the new pending window being mapped. -/
def c1WindowD : FhtWindow :=
  { id := 4, tiled := true, fullscreen := false,
    globalGeometry := ⟨0, 0, 10, 10⟩, title := "d", app_id := "d" }

/-- The active workspace of the concrete scenario: tiled sequence `[A, B]`
(length 2) and a fullscreen slot holding C with `last_known_idx = 2`. -/
def c1Ws : Workspace :=
  { windows := [c1WindowA, c1WindowB], fullscreen := some ⟨c1WindowC, 2⟩ }

/-- The single workspace set of the concrete scenario. -/
def c1Wset : WorkspaceSet :=
  { workspaces := [c1Ws], active_idx := 0 }

/-- The compositor state of the concrete scenario: window D pending on
output 0. -/
def c1State : Fht :=
  { pending_windows := [(c1WindowD, 0)], wsets := [c1Wset],
    focus_target := none, focus_new_windows := false }

/-- Witness for the amended C1: mapping D while C (fullscreened from index 2)
occupies the slot of the workspace `[A, B]` restores C at
`min(2, 2 - 1) = 1`, yielding `[A, C, B, D]`. -/
theorem map_window_restores_displaced_fullscreen_witness :
    removeFirst c1State.pending_windows c1WindowD = some ((c1WindowD, 0), []) ∧
    ((c1State.map_window c1WindowD).wsets.getD 0 default).workspaces.getD 0
        default
      = { windows := [c1WindowA, c1WindowC, c1WindowB, c1WindowD],
          fullscreen := none } := by
  have h := map_window_restores_displaced_fullscreen c1State c1WindowD
    (c1WindowD, 0) [] c1Wset c1Ws ⟨c1WindowC, 2⟩ (by decide) (by decide)
    (by decide) (by decide) (by decide) (by decide)
  exact ⟨by decide, h.trans (by decide)⟩

/-- Counterexample to C1 as stated: with the workspace `[A, B]` (current
length 2) and C fullscreened from tiled index 2, the claim predicts C restored
at `min(2, 2) = 2`, i.e. final sequence `[A, B, C, D]`; the code clamps to
`len - 1` and produces `[A, C, B, D]`. -/
theorem map_window_restore_index_counterexample :
    (((c1State.map_window c1WindowD).wsets.getD 0 default).workspaces.getD 0
        default).windows = [c1WindowA, c1WindowC, c1WindowB, c1WindowD] ∧
    (((c1State.map_window c1WindowD).wsets.getD 0 default).workspaces.getD 0
        default).windows ≠ [c1WindowA, c1WindowB, c1WindowC, c1WindowD] := by
  decide

/-- C9: `map_window` on a window absent from the pending list is a no-op —
the entire compositor state (pending list, workspace sets, focus state) is
returned unchanged. -/
theorem map_window_absent_is_noop (s : Fht) (window : FhtWindow)
    (h : ∀ p ∈ s.pending_windows, p.1 ≠ window) :
    s.map_window window = s := by
  unfold Fht.map_window
  rw [removeFirst_eq_none s.pending_windows window h]

/-- Witness for C9: window A is not pending in the concrete scenario state,
and mapping it leaves the state untouched. -/
theorem map_window_absent_is_noop_witness :
    (∀ p ∈ c1State.pending_windows, p.1 ≠ c1WindowA) ∧
      c1State.map_window c1WindowA = c1State :=
  ⟨by decide, map_window_absent_is_noop c1State c1WindowA (by decide)⟩

/- ===== PopupConstraintSolver (src/shell/mod.rs, Fht::unconstrain_popup) ===== -/

/-- Outcome of `unconstrain_popup`: an early return (`noop`), a fatal panic
(`unwrap` of `None`), or committing the computed target rectangle (the value
handed to `positioner.get_unconstrained_geometry`, i.e. the target before
positioner clamping). -/
inductive UnconstrainOutcome where
  | noop
  | panic
  | setGeometry (target : Rect)
deriving DecidableEq, Repr

/-- `Fht::unconstrain_popup` (src/shell/mod.rs lines 268-297). External
collaborators are parameters: `root` is the result of
`find_popup_root_surface` (a surface identifier, `none` on failure),
`find_window` is `Fht::find_window`, `outputs` are the output geometries in
`Fht::outputs()` order, and `popup_toplevel_coords` is
`get_popup_toplevel_coords(popup)`. The iterator usage of the source is
modelled exactly: the emptiness check `outputs_for_window.next().is_none()`
consumes the first visible output, after which
`outputs_for_window.next().unwrap()` takes the second (panicking when the
window is visible on exactly one output) and the merge loop folds over the
remaining ones. -/
def unconstrain_popup (root : Option Nat) (find_window : Nat → Option FhtWindow)
    (outputs : List Rect) (popup_toplevel_coords : Pt) : UnconstrainOutcome :=
  match root with
  | none => UnconstrainOutcome.noop
  | some root_surface =>
    match find_window root_surface with
    | none => UnconstrainOutcome.noop
    | some window =>
      let outputs_for_window :=
        outputs.filter fun o => o.overlaps window.globalGeometry
      match outputs_for_window with
      | [] => UnconstrainOutcome.noop
      | [_] => UnconstrainOutcome.panic
      | _ :: second :: others =>
        let outputs_geo := others.foldl Rect.merge second
        let target : Rect :=
          { outputs_geo with
            x := outputs_geo.x - popup_toplevel_coords.x
                  - window.globalGeometry.x,
            y := outputs_geo.y - popup_toplevel_coords.y
                  - window.globalGeometry.y }
        UnconstrainOutcome.setGeometry target

/-- The parent window of the popup scenarios: its global geometry
(1000, 100, 1900, 500) spans both outputs below. -/
def c2Window : FhtWindow :=
  { id := 10, tiled := true, fullscreen := false,
    globalGeometry := ⟨1000, 100, 1900, 500⟩, title := "w", app_id := "w" }

/-- A window visible on no output: far away from every output geometry. -/
def c2WindowFar : FhtWindow :=
  { id := 11, tiled := true, fullscreen := false,
    globalGeometry := ⟨99999, 99999, 10, 10⟩, title := "v", app_id := "v" }

/-- C2: evaluating `unconstrain_popup` at the claim's own two-output scenario.
The parent window spans the outputs (0,0,1920,1080) and (1920,0,1920,1080),
whose union is (0,0,3840,1080); the claim (with popup offset 0) therefore
predicts the translated target (-1000,-100,3840,1080). The code drops the
first visible output — its emptiness probe consumed it — and produces
(920,-100,1920,1080), the translation of the second output alone. -/
theorem unconstrain_popup_drops_first_output :
    Rect.merge ⟨0, 0, 1920, 1080⟩ ⟨1920, 0, 1920, 1080⟩ = ⟨0, 0, 3840, 1080⟩ ∧
    unconstrain_popup (some 0) (fun _ => some c2Window)
        [⟨0, 0, 1920, 1080⟩, ⟨1920, 0, 1920, 1080⟩] ⟨0, 0⟩
      = UnconstrainOutcome.setGeometry ⟨920, -100, 1920, 1080⟩ ∧
    UnconstrainOutcome.setGeometry (⟨920, -100, 1920, 1080⟩ : Rect)
      ≠ UnconstrainOutcome.setGeometry ⟨-1000, -100, 3840, 1080⟩ := by
  refine ⟨by decide, by decide, by decide⟩

/-- C3: `unconstrain_popup` recovers as a no-op when the root surface cannot
be resolved, when the root resolves to no window, and when the window is
visible on zero outputs — but it panics (a fatal `unwrap` of `None`) when the
parent window is visible on exactly one output, contradicting the claim that
the call returns normally for any number of visible outputs. -/
theorem unconstrain_popup_single_output_panics :
    unconstrain_popup none (fun _ => some c2Window)
        [⟨0, 0, 1920, 1080⟩] ⟨0, 0⟩ = UnconstrainOutcome.noop ∧
    unconstrain_popup (some 0) (fun _ => none)
        [⟨0, 0, 1920, 1080⟩] ⟨0, 0⟩ = UnconstrainOutcome.noop ∧
    unconstrain_popup (some 0) (fun _ => some c2WindowFar)
        [⟨0, 0, 1920, 1080⟩] ⟨0, 0⟩ = UnconstrainOutcome.noop ∧
    unconstrain_popup (some 0) (fun _ => some c2Window)
        [⟨0, 0, 1920, 1080⟩] ⟨0, 0⟩ = UnconstrainOutcome.panic := by
  refine ⟨by decide, by decide, by decide, by decide⟩
